import Mathlib

/-!
# yudetamago-config-mode-example: a shallow embedding of `main.go`

The program scans for the BLE peripheral named "Yudetamago config", connects,
resolves one notify and one write characteristic, writes a fixed command and
polls the notify characteristic until a response contains "result".

Everything the program does to the outside world goes through the BLE host
stack, the `context`, `strings`, `fmt` and `log` packages.  Those are not part
of the repository; the embedding takes their answers from an environment
record (`Env`) and records every call the program makes in a trace of
`Event`s.  Go strings and byte slices are lists of bytes; formatted output is
recorded as the format string with its operands, unformatted.
-/

namespace Yudetamago

/-! ## Go strings -/

/-- A Go `string` or `[]byte`: a sequence of bytes (each below 256). -/
abbrev GoString := List Nat

/-- The bytes of an ASCII string literal of the source. -/
def bytesOf (s : String) : GoString := s.data.map Char.toNat

/-- The `strings.HasPrefix` of Go: `s` begins with `pre`. -/
def HasPrefix (s pre : GoString) : Bool := pre.isPrefixOf s

/-- The loop of `strings.Index`: the first position at or after `i` where
`substr` occurs, or `-1`. -/
def indexFrom (substr : GoString) : GoString → Nat → Int
  | [], i => if HasPrefix [] substr then (i : Int) else -1
  | b :: rest, i => if HasPrefix (b :: rest) substr then (i : Int) else indexFrom substr rest (i + 1)

/-- The `strings.Index` of Go: index of the first instance of `substr` in `s`,
or `-1` when there is none. -/
def Index (s substr : GoString) : Int := indexFrom substr s 0

/-- The `strings.Contains` of Go: `Index(s, substr) >= 0`. -/
def Contains (s substr : GoString) : Bool := decide (0 ≤ Index s substr)

/-- The ASCII fast path of `strings.ToUpper` applies when every byte is below
`utf8.RuneSelf`. -/
def isASCII (s : GoString) : Bool := s.all (fun c => decide (c < 0x80))

/-- Some byte of `s` is in `'a'..'z'`. -/
def hasLower (s : GoString) : Bool := s.any (fun c => decide (97 ≤ c ∧ c ≤ 122))

/-- One byte through the ASCII path of `strings.ToUpper`: `c -= 'a' - 'A'` for
a lower-case letter, unchanged otherwise. -/
def upperByte (c : Nat) : Nat := if 97 ≤ c ∧ c ≤ 122 then c - 32 else c

/-- The `strings.ToUpper` of Go.  An all-ASCII string takes the fast path (the
string itself when it has no lower-case letter, else every lower-case letter
shifted).  Any other string goes to `strings.Map(unicode.ToUpper, s)`, which
is the parameter `unicodeUpper`: the Unicode tables are not part of the
repository. -/
def ToUpper (unicodeUpper : GoString → GoString) (s : GoString) : GoString :=
  if isASCII s then
    if !hasLower s then s else s.map upperByte
  else unicodeUpper s

/-- State machine of `utf8.Valid` (RFC 3629): `pending` continuation bytes are
still owed, the next of them must lie in `lo..hi`. -/
def utf8ValidFrom : Nat → Nat → Nat → GoString → Bool
  | pending, _, _, [] => pending == 0
  | 0, _, _, b :: rest =>
    if b < 0x80 then utf8ValidFrom 0 0x80 0xBF rest
    else if 0xC2 ≤ b ∧ b ≤ 0xDF then utf8ValidFrom 1 0x80 0xBF rest
    else if b = 0xE0 then utf8ValidFrom 2 0xA0 0xBF rest
    else if b = 0xED then utf8ValidFrom 2 0x80 0x9F rest
    else if 0xE1 ≤ b ∧ b ≤ 0xEF then utf8ValidFrom 2 0x80 0xBF rest
    else if b = 0xF0 then utf8ValidFrom 3 0x90 0xBF rest
    else if b = 0xF4 then utf8ValidFrom 3 0x80 0x8F rest
    else if 0xF1 ≤ b ∧ b ≤ 0xF3 then utf8ValidFrom 3 0x80 0xBF rest
    else false
  | pending + 1, lo, hi, b :: rest =>
    if lo ≤ b ∧ b ≤ hi then utf8ValidFrom pending 0x80 0xBF rest else false

/-- The bytes are a valid UTF-8 encoding (`utf8.Valid`). -/
def utf8Valid (s : GoString) : Bool := utf8ValidFrom 0 0x80 0xBF s

/-! ## Data of the BLE host stack -/

/-- A `ble.Advertisement`, as far as the program looks at it. -/
structure Advertisement where
  localName : GoString
  address : GoString
  rssi : Int
deriving DecidableEq, Repr

/-- A `ble.Characteristic`: its handle and its `Property` bitmask (the
`ble.Property` flags fit one byte; the mask is a natural number here). -/
structure Characteristic where
  handle : Nat
  property : Nat
deriving DecidableEq, Repr

/-- A `ble.Service`: its characteristics in discovery order. -/
structure Service where
  characteristics : List Characteristic
deriving DecidableEq, Repr

/-- A `ble.Profile`: its services in discovery order. -/
structure Profile where
  services : List Service
deriving DecidableEq, Repr

/-- The flag `ble.CharWrite`. -/
def CharWrite : Nat := 0x08

/-- The flag `ble.CharNotify`. -/
def CharNotify : Nat := 0x10

/-- A Go `error` value: one reported by a library (its message), or the one
built by `fmt.Errorf(format, v)` with a `ble.Property` operand. -/
inductive GoError where
  | lib (msg : GoString)
  | errorf (format : String) (v : Nat)
deriving DecidableEq, Repr

/-- An operand of a formatted print. -/
inductive Arg where
  | str (s : GoString)
  | int (n : Int)
  | duration (d : Int)
  | error (e : GoError)
deriving DecidableEq, Repr

/-- A `context.Context` as built by `main`: its deadline (an instant in
nanoseconds), and whether `ble.WithSigHandler` has attached the interrupt
handler. -/
structure Ctx where
  deadline : Option Int
  sigHandler : Bool
deriving DecidableEq, Repr

/-- The value of `context.Background()`: no deadline. -/
def background : Ctx := { deadline := none, sigHandler := false }

/-- The `context.WithTimeout(parent, timeout)` of Go, called at instant `now`:
it is `WithDeadline(parent, now + timeout)`, which keeps the parent when the
parent's deadline is already sooner. -/
def withTimeout (now : Int) (parent : Ctx) (timeout : Int) : Ctx :=
  match parent.deadline with
  | some cur => if cur < now + timeout then parent else { parent with deadline := some (now + timeout) }
  | none => { parent with deadline := some (now + timeout) }

/-- The `ble.WithSigHandler(ctx, cancel)` of the host stack: the same context,
also cancelled by an operator interrupt. -/
def withSigHandler (ctx : Ctx) : Ctx := { ctx with sigHandler := true }

/-- The deadline of the context has elapsed at instant `t` (the context
package cancels with `DeadlineExceeded` as soon as `deadline - t <= 0`). -/
def Ctx.expiredAt (ctx : Ctx) (t : Int) : Bool :=
  match ctx.deadline with
  | some d => decide (d ≤ t)
  | none => false

/-- What one `ReadCharacteristic` call gives back. -/
inductive ReadOutcome where
  | ok (buf : GoString)
  | err (e : GoError)
deriving DecidableEq, Repr

/-- One action of the main goroutine on the outside world. -/
inductive Event where
  | newDevice (impl : GoString)
  | setDefaultDevice
  | printf (format : String) (args : List Arg)
  | logPrintf (format : String) (args : List Arg)
  | logPrint (operands : List GoString)
  | fatalf (format : String) (args : List Arg)
  | connect (ctx : Ctx)
  | exchangeMTU (txMTU : Int)
  | goWatcher
  | discoverProfile (force : Bool)
  | writeCharacteristic (c : Option Characteristic) (v : GoString) (noRsp : Bool)
  | readCharacteristic (c : Option Characteristic)
  | cancelConnection
  | recvDone
deriving DecidableEq, Repr

/-- How a function call ends: it returns a value, or the process ends inside
it (`log.Fatalf` prints and calls `os.Exit(1)`). -/
inductive Completion (α : Type) where
  | returned (v : α)
  | exited (status : Nat)
deriving DecidableEq, Repr

/-- The answers of the outside world to one run of the program. -/
structure Env where
  /-- The flag `-device`. -/
  device : GoString
  /-- The flag `-sd`, a `time.Duration` in nanoseconds. -/
  sd : Int
  /-- The clock when the scan context is built. -/
  now : Int
  /-- The non-ASCII path of `strings.ToUpper`. -/
  unicodeUpper : GoString → GoString
  /-- The error of `dev.NewDevice`, if any. -/
  newDevice : GoString → Option GoError
  /-- The error of `ble.Connect` for a context and a filter, if any. -/
  connect : Ctx → (Advertisement → Bool) → Option GoError
  /-- The negotiated MTU or the error of `ExchangeMTU`. -/
  exchangeMTU : Int → Except GoError Int
  /-- The value of `cln.Address()`. -/
  address : GoString
  /-- The profile or the error of `DiscoverProfile`. -/
  discoverProfile : Bool → Except GoError Profile
  /-- The error of the `WriteCharacteristic` call, if any. -/
  writeError : Option GoError
  /-- The outcomes of the successive `ReadCharacteristic` calls. -/
  reads : List ReadOutcome

/-! ## The program -/

/-- The constant `name`. -/
def name : GoString := bytesOf "Yudetamago config"

/-- The constant `command`. -/
def command : GoString := bytesOf "set_led 0 0 0 0\n"

/-- The closure `filter` of `main`:
`strings.ToUpper(a.LocalName()) == strings.ToUpper(name)`. -/
def filter (unicodeUpper : GoString → GoString) (a : Advertisement) : Bool :=
  ToUpper unicodeUpper a.localName == ToUpper unicodeUpper name

/-- The inner loop of `getCharacteristicsImpl` over one service: the first
characteristic with `(c.Property & property) != 0`. -/
def firstInService (property : Nat) : List Characteristic → Option Characteristic
  | [] => none
  | c :: rest => if (c.property &&& property) ≠ 0 then some c else firstInService property rest

/-- The outer loop of `getCharacteristicsImpl` over the services, with the
`fmt.Errorf` after it. -/
def firstInServices (property : Nat) : List Service → Option Characteristic × Option GoError
  | [] => (none, some (GoError.errorf "not found %v Characteristic" property))
  | s :: rest =>
    match firstInService property s.characteristics with
    | some c => (some c, none)
    | none => firstInServices property rest

/-- The function `getCharacteristicsImpl`: the pair `(characteristic, error)`
it returns, `none` standing for `nil`. -/
def getCharacteristicsImpl (profile : Profile) (property : Nat) :
    Option Characteristic × Option GoError :=
  firstInServices property profile.services

/-- The function `getNotifyCharacteristics`. -/
def getNotifyCharacteristics (p : Profile) : Option Characteristic × Option GoError :=
  getCharacteristicsImpl p CharNotify

/-- The function `getWriteCharacteristics`. -/
def getWriteCharacteristics (p : Profile) : Option Characteristic × Option GoError :=
  getCharacteristicsImpl p CharWrite

/-- The `for` loop of `executeCommand`, one iteration per outcome of the read
script.  `none` when the script ends while the loop is still polling. -/
def readLoop (command : GoString) (readCharacteristics : Option Characteristic) :
    List ReadOutcome → Option (List Event × Completion (Option GoError))
  | [] => none
  | ReadOutcome.err e :: _ =>
    some ([Event.logPrint [bytesOf "[write] ", command],
           Event.readCharacteristic readCharacteristics,
           Event.fatalf "ReadCharacteristic() returns fails: %s" [Arg.error e]],
          Completion.exited 1)
  | ReadOutcome.ok buf :: rest =>
    let resp := buf
    let events := [Event.logPrint [bytesOf "[write] ", command],
                   Event.readCharacteristic readCharacteristics,
                   Event.logPrint [bytesOf "[read ] ", resp]]
    if Contains resp (bytesOf "result") then
      some (events, Completion.returned none)
    else
      match readLoop command readCharacteristics rest with
      | some (more, done) => some (events ++ more, done)
      | none => none

/-- The function `executeCommand`: the write, whose error result is dropped,
then the read loop. -/
def executeCommand (writeError : Option GoError) (reads : List ReadOutcome)
    (command : GoString) (writeCharacteristics readCharacteristics : Option Characteristic) :
    Option (List Event × Completion (Option GoError)) :=
  let _ := writeError
  match readLoop command readCharacteristics reads with
  | some (more, done) =>
    some (Event.writeCharacteristic writeCharacteristics command false :: more, done)
  | none => none

/-- The context `main` passes to `ble.Connect`:
`ble.WithSigHandler(context.WithTimeout(context.Background(), *sd))`. -/
def scanContext (now sd : Int) : Ctx := withSigHandler (withTimeout now background sd)

/-- The function `main` from profile discovery on: resolve the two
characteristics (both errors are overwritten unread), run the command, tear
down. -/
def session (env : Env) (p : Profile) : Option (List Event × Nat) :=
  let (notifyCharacteristics, _) := getNotifyCharacteristics p
  let (writeCharacteristics, _) := getWriteCharacteristics p
  match executeCommand env.writeError env.reads command writeCharacteristics notifyCharacteristics with
  | none => none
  | some (events, Completion.exited status) => some (events, status)
  | some (events, Completion.returned (some err)) =>
    some (events ++ [Event.fatalf "executeCommand() returns fail: %s" [Arg.error err]], 1)
  | some (events, Completion.returned none) =>
    some (events ++
      [Event.printf "Disconnecting [ %s ]... (this might take up to few seconds on OS X)\n"
         [Arg.str env.address],
       Event.cancelConnection,
       Event.recvDone], 0)

/-- The function `main`: the trace of the main goroutine and the exit status
of the process. -/
def main (env : Env) : Option (List Event × Nat) :=
  match env.newDevice env.device with
  | some err =>
    some ([Event.newDevice env.device, Event.fatalf "can't new device : %s" [Arg.error err]], 1)
  | none =>
    let ctx := scanContext env.now env.sd
    let started := [Event.newDevice env.device, Event.setDefaultDevice,
                    Event.printf "Scanning for %s...\n" [Arg.duration env.sd],
                    Event.connect ctx]
    match env.connect ctx (filter env.unicodeUpper) with
    | some err => some (started ++ [Event.fatalf "can't connect : %s" [Arg.error err]], 1)
    | none =>
      match env.exchangeMTU 512 with
      | Except.error err =>
        some (started ++ [Event.exchangeMTU 512,
                          Event.fatalf "can't exchange MTU : %s" [Arg.error err]], 1)
      | Except.ok mtu =>
        let connected := started ++ [Event.exchangeMTU 512,
                                     Event.logPrintf "exchange MTU : %d" [Arg.int mtu],
                                     Event.goWatcher,
                                     Event.printf "Discovering profile...\n" [],
                                     Event.discoverProfile true]
        match env.discoverProfile true with
        | Except.error err =>
          some (connected ++ [Event.fatalf "can't discover profile: %s" [Arg.error err]], 1)
        | Except.ok p =>
          match session env p with
          | some (events, status) => some (connected ++ events, status)
          | none => none

/-- Number of `ReadCharacteristic` calls in a trace. -/
def readCount (events : List Event) : Nat :=
  events.countP (fun e => match e with | Event.readCharacteristic _ => true | _ => false)

/-- Number of `CancelConnection` calls in a trace. -/
def cancelCount (events : List Event) : Nat :=
  events.countP (fun e => match e with | Event.cancelConnection => true | _ => false)

/-- Number of `WriteCharacteristic` calls in a trace. -/
def writeCount (events : List Event) : Nat :=
  events.countP (fun e => match e with | Event.writeCharacteristic _ _ _ => true | _ => false)

/-- All characteristics of a profile in discovery order: services in order,
the characteristics of each in order. -/
def allCharacteristics (p : Profile) : List Characteristic :=
  p.services.flatMap Service.characteristics

/-- The events of one iteration of the read loop that reads `resp`: the
"[write] " log line, the read, the "[read ] " log line. -/
def iterationEvents (command : GoString) (readCharacteristics : Option Characteristic)
    (resp : GoString) : List Event :=
  [Event.logPrint [bytesOf "[write] ", command],
   Event.readCharacteristic readCharacteristics,
   Event.logPrint [bytesOf "[read ] ", resp]]

/-- The events of successive iterations of the read loop, one per response. -/
def pollEvents (command : GoString) (readCharacteristics : Option Characteristic)
    (resps : List GoString) : List Event :=
  resps.flatMap (iterationEvents command readCharacteristics)

/-- The events of the iteration of the read loop whose read fails with `e`. -/
def failedReadEvents (command : GoString) (readCharacteristics : Option Characteristic)
    (e : GoError) : List Event :=
  [Event.logPrint [bytesOf "[write] ", command],
   Event.readCharacteristic readCharacteristics,
   Event.fatalf "ReadCharacteristic() returns fails: %s" [Arg.error e]]

/-- Number of receives from the channel `done` in a trace. -/
def recvCount (events : List Event) : Nat :=
  events.countP (fun e => match e with | Event.recvDone => true | _ => false)

/-- The trace of `main` from its start to the `DiscoverProfile` call, when
every step up to there succeeds and the negotiated MTU is `mtu`. -/
def connectedEvents (env : Env) (mtu : Int) : List Event :=
  [Event.newDevice env.device, Event.setDefaultDevice,
   Event.printf "Scanning for %s...\n" [Arg.duration env.sd],
   Event.connect (scanContext env.now env.sd),
   Event.exchangeMTU 512,
   Event.logPrintf "exchange MTU : %d" [Arg.int mtu],
   Event.goWatcher,
   Event.printf "Discovering profile...\n" [],
   Event.discoverProfile true]

/-- A profile with one service holding a write-capable and a notify-capable
characteristic. -/
def scenarioProfile : Profile :=
  { services := [{ characteristics := [⟨1, CharWrite⟩, ⟨2, CharNotify⟩] }] }

/-- A run in which the peripheral advertises "YUDETAMAGO CONFIG" one second
after the scan starts: `ble.Connect` succeeds when the filter accepts that
advertisement and the context has not expired by then.  The profile, the
outcome of the write and the outcomes of the reads are given. -/
def scenarioEnv (sd : Int) (p : Profile) (writeError : Option GoError)
    (reads : List ReadOutcome) : Env :=
  { device := bytesOf "default"
    sd := sd
    now := 0
    unicodeUpper := fun s => s
    newDevice := fun _ => none
    connect := fun ctx accept =>
      if accept { localName := bytesOf "YUDETAMAGO CONFIG", address := bytesOf "aa:bb", rssi := -40 }
          && !ctx.expiredAt 1000000000 then none
      else some (GoError.lib (bytesOf "context deadline exceeded"))
    exchangeMTU := fun _ => Except.ok 23
    address := bytesOf "aa:bb"
    discoverProfile := fun _ => Except.ok p
    writeError := writeError
    reads := reads }

/-! ## Facts about the string functions -/

theorem HasPrefix_iff (s pre : GoString) : HasPrefix s pre = true ↔ pre <+: s := by
  unfold HasPrefix
  exact List.isPrefixOf_iff_prefix

theorem indexFrom_nonneg_iff (substr : GoString) (s : GoString) (i : Nat) :
    0 ≤ indexFrom substr s i ↔ substr <:+: s := by
  induction s generalizing i with
  | nil =>
    unfold indexFrom
    by_cases h : HasPrefix [] substr = true
    · have hp := (HasPrefix_iff [] substr).1 h
      rw [if_pos h]
      exact ⟨fun _ => hp.isInfix, fun _ => Int.ofNat_nonneg i⟩
    · rw [if_neg h]
      constructor
      · intro hneg
        exact absurd hneg (by decide)
      · intro hin
        exfalso
        apply h
        rw [HasPrefix_iff]
        have hnil : substr = [] := List.eq_nil_of_infix_nil hin
        rw [hnil]
  | cons b rest ih =>
    unfold indexFrom
    by_cases h : HasPrefix (b :: rest) substr = true
    · have hp := (HasPrefix_iff (b :: rest) substr).1 h
      rw [if_pos h]
      exact ⟨fun _ => hp.isInfix, fun _ => Int.ofNat_nonneg i⟩
    · rw [if_neg h, ih (i + 1), List.infix_cons_iff]
      constructor
      · intro hin
        exact Or.inr hin
      · intro hor
        rcases hor with hpre | hin
        · exact absurd ((HasPrefix_iff (b :: rest) substr).2 hpre) h
        · exact hin

/-- The model of `strings.Contains` decides the substring relation. -/
theorem Contains_iff_substring (s substr : GoString) : Contains s substr = true ↔ substr <:+: s := by
  unfold Contains Index
  rw [decide_eq_true_iff]
  exact indexFrom_nonneg_iff substr s 0

theorem Contains_eq_false_iff (s substr : GoString) :
    Contains s substr = false ↔ ¬ substr <:+: s := by
  rw [← Contains_iff_substring, Bool.not_eq_true]

/-- The upper-cased target name. -/
theorem ToUpper_name (unicodeUpper : GoString → GoString) :
    ToUpper unicodeUpper name = bytesOf "YUDETAMAGO CONFIG" := by
  have hascii : isASCII name = true := by decide
  unfold ToUpper
  rw [if_pos hascii]
  decide

theorem map_upperByte_of_not_hasLower (s : GoString) (h : hasLower s = false) :
    s.map upperByte = s := by
  induction s with
  | nil => rfl
  | cons b rest ih =>
    unfold hasLower at h ih
    rw [List.any_cons, Bool.or_eq_false_iff] at h
    rw [List.map_cons, ih h.2]
    have hb : ¬ (97 ≤ b ∧ b ≤ 122) := of_decide_eq_false h.1
    unfold upperByte
    rw [if_neg hb]

/-- On an all-ASCII string `strings.ToUpper` shifts every lower-case letter. -/
theorem ToUpper_of_isASCII (unicodeUpper : GoString → GoString) (s : GoString)
    (h : isASCII s = true) : ToUpper unicodeUpper s = s.map upperByte := by
  unfold ToUpper
  rw [if_pos h]
  cases hl : hasLower s with
  | true => rfl
  | false => exact (map_upperByte_of_not_hasLower s hl).symm

/-! ## The peripheral filter -/

/-- C1: the peripheral filter of `main` is true exactly when the upper-cased
local name equals the upper-cased target name, which is "YUDETAMAGO CONFIG";
an advertisement with an empty local name is never matched. -/
theorem filter_iff_upper_eq (unicodeUpper : GoString → GoString) (a : Advertisement) :
    (filter unicodeUpper a = true ↔
        ToUpper unicodeUpper a.localName = ToUpper unicodeUpper name)
    ∧ ToUpper unicodeUpper name = bytesOf "YUDETAMAGO CONFIG"
    ∧ (∀ (address : GoString) (rssi : Int),
        filter unicodeUpper { localName := [], address := address, rssi := rssi } = false) := by
  refine ⟨?_, ToUpper_name unicodeUpper, ?_⟩
  · unfold filter
    exact beq_iff_eq
  · intro address rssi
    have hempty : ToUpper unicodeUpper [] = [] := rfl
    unfold filter
    rw [ToUpper_name unicodeUpper]
    show (ToUpper unicodeUpper [] == bytesOf "YUDETAMAGO CONFIG") = false
    rw [hempty]
    decide

/-- For an all-ASCII local name the filter compares letter by letter without
regard to case. -/
theorem filter_of_isASCII (unicodeUpper : GoString → GoString) (a : Advertisement)
    (h : isASCII a.localName = true) :
    filter unicodeUpper a = true ↔ a.localName.map upperByte = bytesOf "YUDETAMAGO CONFIG" := by
  unfold filter
  rw [beq_iff_eq, ToUpper_name unicodeUpper, ToUpper_of_isASCII unicodeUpper a.localName h]

/-! ## Selecting a characteristic -/

theorem and_two_pow_ne_zero_iff (n k : Nat) : n &&& 2 ^ k ≠ 0 ↔ n.testBit k = true := by
  rw [Nat.and_two_pow]
  cases n.testBit k with
  | true => simp
  | false => simp

theorem firstInService_some (property : Nat) (cs : List Characteristic) (c : Characteristic)
    (h : firstInService property cs = some c) :
    ∃ pre post, cs = pre ++ c :: post ∧ (∀ x ∈ pre, x.property &&& property = 0) ∧
      c.property &&& property ≠ 0 := by
  induction cs with
  | nil => exact absurd h (by simp [firstInService])
  | cons d rest ih =>
    unfold firstInService at h
    by_cases hd : d.property &&& property ≠ 0
    · rw [if_pos hd] at h
      have hdc : d = c := Option.some.inj h
      subst hdc
      exact ⟨[], rest, rfl, fun x hx => absurd hx (List.not_mem_nil x), hd⟩
    · rw [if_neg hd] at h
      obtain ⟨pre, post, hsplit, hpre, hc⟩ := ih h
      refine ⟨d :: pre, post, ?_, ?_, hc⟩
      · rw [hsplit, List.cons_append]
      · intro x hx
        rcases List.mem_cons.1 hx with hxd | hxp
        · rw [hxd]
          exact not_not.1 hd
        · exact hpre x hxp

theorem firstInService_none_iff (property : Nat) (cs : List Characteristic) :
    firstInService property cs = none ↔ ∀ x ∈ cs, x.property &&& property = 0 := by
  induction cs with
  | nil => simp [firstInService]
  | cons d rest ih =>
    unfold firstInService
    by_cases hd : d.property &&& property ≠ 0
    · rw [if_pos hd]
      constructor
      · intro h
        exact absurd h (by simp)
      · intro h
        exact absurd (h d (List.mem_cons_self d rest)) hd
    · rw [if_neg hd, ih]
      constructor
      · intro h x hx
        rcases List.mem_cons.1 hx with hxd | hxr
        · rw [hxd]
          exact not_not.1 hd
        · exact h x hxr
      · intro h x hx
        exact h x (List.mem_cons_of_mem d hx)

/-- The two results `getCharacteristicsImpl` can give. -/
theorem firstInServices_cases (property : Nat) (ss : List Service) :
    firstInServices property ss
        = (none, some (GoError.errorf "not found %v Characteristic" property))
      ∨ ∃ c, firstInServices property ss = (some c, none) := by
  induction ss with
  | nil => exact Or.inl rfl
  | cons s rest ih =>
    unfold firstInServices
    cases hs : firstInService property s.characteristics with
    | some c => exact Or.inr ⟨c, rfl⟩
    | none => exact ih

theorem firstInServices_some (property : Nat) (ss : List Service) (c : Characteristic)
    (h : firstInServices property ss = (some c, none)) :
    ∃ pre post, ss.flatMap Service.characteristics = pre ++ c :: post ∧
      (∀ x ∈ pre, x.property &&& property = 0) ∧ c.property &&& property ≠ 0 := by
  induction ss with
  | nil => exact absurd h (by simp [firstInServices])
  | cons s rest ih =>
    unfold firstInServices at h
    cases hs : firstInService property s.characteristics with
    | some d =>
      rw [hs] at h
      have hdc : d = c := by
        have h1 := congrArg Prod.fst h
        exact Option.some.inj h1
      subst hdc
      obtain ⟨pre, post, hsplit, hpre, hc⟩ := firstInService_some property _ d hs
      refine ⟨pre, post ++ rest.flatMap Service.characteristics, ?_, hpre, hc⟩
      rw [List.flatMap_cons, hsplit, List.append_assoc, List.cons_append]
    | none =>
      rw [hs] at h
      obtain ⟨pre, post, hsplit, hpre, hc⟩ := ih h
      refine ⟨s.characteristics ++ pre, post, ?_, ?_, hc⟩
      · rw [List.flatMap_cons, hsplit, List.append_assoc]
      · intro x hx
        rcases List.mem_append.1 hx with hxs | hxp
        · exact (firstInService_none_iff property s.characteristics).1 hs x hxs
        · exact hpre x hxp

theorem firstInServices_notFound_iff (property : Nat) (ss : List Service) :
    firstInServices property ss
        = (none, some (GoError.errorf "not found %v Characteristic" property))
      ↔ ∀ s ∈ ss, ∀ c ∈ s.characteristics, c.property &&& property = 0 := by
  induction ss with
  | nil => simp [firstInServices]
  | cons s rest ih =>
    unfold firstInServices
    cases hs : firstInService property s.characteristics with
    | some d =>
      obtain ⟨pre, post, hsplit, _, hd⟩ := firstInService_some property _ d hs
      constructor
      · intro h
        exact absurd (congrArg Prod.fst h) (by simp)
      · intro h
        have hmem : d ∈ s.characteristics := by
          rw [hsplit]
          exact List.mem_append_right pre (List.mem_cons_self d post)
        exact absurd (h s (List.mem_cons_self s rest) d hmem) hd
    | none =>
      have hall := (firstInService_none_iff property s.characteristics).1 hs
      show firstInServices property rest = _ ↔ _
      rw [ih]
      constructor
      · intro h t ht
        rcases List.mem_cons.1 ht with hts | htr
        · rw [hts]
          exact hall
        · exact h t htr
      · intro h t ht
        exact h t (List.mem_cons_of_mem s ht)

/-- C2: when `getCharacteristicsImpl` succeeds for a single flag `2 ^ k` (Write
is `2 ^ 3`, Notify is `2 ^ 4`), the characteristic it returns is the first one
in discovery order (services in order, characteristics of each in order) whose
property mask has that flag: every characteristic before it lacks the flag and
it has the flag. -/
theorem getCharacteristicsImpl_first (profile : Profile) (k : Nat) (c : Characteristic)
    (h : getCharacteristicsImpl profile (2 ^ k) = (some c, none)) :
    ∃ pre post, allCharacteristics profile = pre ++ c :: post ∧
      (∀ x ∈ pre, x.property.testBit k = false) ∧ c.property.testBit k = true := by
  obtain ⟨pre, post, hsplit, hpre, hc⟩ := firstInServices_some (2 ^ k) profile.services c h
  refine ⟨pre, post, hsplit, ?_, (and_two_pow_ne_zero_iff c.property k).1 hc⟩
  intro x hx
  have hx0 := hpre x hx
  cases hb : x.property.testBit k with
  | false => rfl
  | true => exact absurd hx0 ((and_two_pow_ne_zero_iff x.property k).2 hb)

/-- C2 at a profile of two services for the Notify flag: the second service
holds the first notify-capable characteristic, a later one is not chosen. -/
theorem getCharacteristicsImpl_first_witness :
    CharNotify = 2 ^ 4 ∧
    ∃ pre post,
      allCharacteristics
          { services := [{ characteristics := [⟨1, 0x02⟩, ⟨2, 0x08⟩] },
                         { characteristics := [⟨3, 0x0A⟩, ⟨4, 0x12⟩, ⟨5, 0x10⟩] }] }
        = pre ++ (⟨4, 0x12⟩ : Characteristic) :: post ∧
      (∀ x ∈ pre, x.property.testBit 4 = false) ∧
      (⟨4, 0x12⟩ : Characteristic).property.testBit 4 = true :=
  ⟨by decide,
   getCharacteristicsImpl_first
    { services := [{ characteristics := [⟨1, 0x02⟩, ⟨2, 0x08⟩] },
                   { characteristics := [⟨3, 0x0A⟩, ⟨4, 0x12⟩, ⟨5, 0x10⟩] }] }
    4 ⟨4, 0x12⟩ (by decide)⟩

/-- C3: `getCharacteristicsImpl` returns a nil characteristic with the error
"not found <property> Characteristic" exactly when no characteristic of any
service of the profile has a bit of the required property set; in every other
case it returns a characteristic and a nil error. -/
theorem getCharacteristicsImpl_notFound_iff (profile : Profile) (property : Nat) :
    (getCharacteristicsImpl profile property
        = (none, some (GoError.errorf "not found %v Characteristic" property))
      ↔ ∀ s ∈ profile.services, ∀ c ∈ s.characteristics, c.property &&& property = 0)
    ∧ (getCharacteristicsImpl profile property
        = (none, some (GoError.errorf "not found %v Characteristic" property))
      ∨ ∃ c, getCharacteristicsImpl profile property = (some c, none)) :=
  ⟨firstInServices_notFound_iff property profile.services,
   firstInServices_cases property profile.services⟩

/-! ## The command executor -/

theorem readCount_append (xs ys : List Event) :
    readCount (xs ++ ys) = readCount xs + readCount ys := by
  unfold readCount
  exact List.countP_append _ xs ys

theorem readCount_pollEvents (command : GoString) (rc : Option Characteristic)
    (resps : List GoString) : readCount (pollEvents command rc resps) = resps.length := by
  induction resps with
  | nil => rfl
  | cons b rest ih =>
    have hcons : pollEvents command rc (b :: rest)
        = iterationEvents command rc b ++ pollEvents command rc rest := by
      unfold pollEvents
      exact List.flatMap_cons b rest _
    have hone : readCount (iterationEvents command rc b) = 1 := rfl
    rw [hcons, readCount_append, ih, hone, List.length_cons, Nat.add_comm]

theorem pollEvents_append (command : GoString) (rc : Option Characteristic)
    (xs ys : List GoString) :
    pollEvents command rc (xs ++ ys) = pollEvents command rc xs ++ pollEvents command rc ys := by
  unfold pollEvents
  exact List.flatMap_append xs ys _

theorem pollEvents_singleton (command : GoString) (rc : Option Characteristic) (b : GoString) :
    pollEvents command rc [b] = iterationEvents command rc b := by
  unfold pollEvents
  rw [List.flatMap_cons, List.flatMap_nil, List.append_nil]

/-- One iteration of the read loop on a successful read: the loop ends with
success when the raw bytes contain "result", and goes on to the next read
otherwise. -/
theorem readLoop_ok_step (command : GoString) (rc : Option Characteristic) (buf : GoString)
    (rest : List ReadOutcome) :
    readLoop command rc (ReadOutcome.ok buf :: rest) =
      if bytesOf "result" <:+: buf then
        some (iterationEvents command rc buf, Completion.returned none)
      else
        match readLoop command rc rest with
        | some (more, done) => some (iterationEvents command rc buf ++ more, done)
        | none => none := by
  by_cases h : bytesOf "result" <:+: buf
  · have hc : Contains buf (bytesOf "result") = true := (Contains_iff_substring _ _).2 h
    rw [if_pos h]
    unfold readLoop
    simp only [hc, if_true]
    rfl
  · have hc : Contains buf (bytesOf "result") = false := (Contains_eq_false_iff _ _).2 h
    rw [if_neg h]
    conv_lhs => unfold readLoop
    simp only [hc]
    rfl

/-- The read loop passes over successful responses without "result". -/
theorem readLoop_skip (command : GoString) (rc : Option Characteristic) (bufs : List GoString)
    (tail : List ReadOutcome) (hpre : ∀ b ∈ bufs, ¬ bytesOf "result" <:+: b) :
    readLoop command rc (bufs.map ReadOutcome.ok ++ tail) =
      match readLoop command rc tail with
      | some (more, done) => some (pollEvents command rc bufs ++ more, done)
      | none => none := by
  induction bufs with
  | nil =>
    show readLoop command rc tail = _
    cases readLoop command rc tail with
    | none => rfl
    | some r => rfl
  | cons b rest ih =>
    have hb : ¬ bytesOf "result" <:+: b := hpre b (List.mem_cons_self b rest)
    have hrest : ∀ x ∈ rest, ¬ bytesOf "result" <:+: x :=
      fun x hx => hpre x (List.mem_cons_of_mem b hx)
    rw [List.map_cons, List.cons_append, readLoop_ok_step, if_neg hb, ih hrest]
    cases readLoop command rc tail with
    | none => rfl
    | some r =>
      have hcons : pollEvents command rc (b :: rest)
          = iterationEvents command rc b ++ pollEvents command rc rest := by
        unfold pollEvents
        exact List.flatMap_cons b rest _
      show some (iterationEvents command rc b ++ (pollEvents command rc rest ++ r.1), r.2)
        = some (pollEvents command rc (b :: rest) ++ r.1, r.2)
      rw [hcons, List.append_assoc]

/-- The run of `executeCommand` on responses without "result" followed by
one with it. -/
theorem executeCommand_of_result (writeError : Option GoError) (command : GoString)
    (wc rc : Option Characteristic) (bufs : List GoString) (buf : GoString)
    (rest : List ReadOutcome)
    (hpre : ∀ b ∈ bufs, ¬ bytesOf "result" <:+: b) (hbuf : bytesOf "result" <:+: buf) :
    executeCommand writeError (bufs.map ReadOutcome.ok ++ ReadOutcome.ok buf :: rest)
        command wc rc
      = some (Event.writeCharacteristic wc command false :: pollEvents command rc (bufs ++ [buf]),
              Completion.returned none) := by
  unfold executeCommand
  rw [readLoop_skip command rc bufs _ hpre, readLoop_ok_step, if_pos hbuf,
    pollEvents_append, pollEvents_singleton]

/-- The run of `executeCommand` on responses without "result" followed by a
failed read. -/
theorem executeCommand_of_failed_read (writeError : Option GoError) (command : GoString)
    (wc rc : Option Characteristic) (bufs : List GoString) (e : GoError)
    (rest : List ReadOutcome)
    (hpre : ∀ b ∈ bufs, ¬ bytesOf "result" <:+: b) :
    executeCommand writeError (bufs.map ReadOutcome.ok ++ ReadOutcome.err e :: rest)
        command wc rc
      = some (Event.writeCharacteristic wc command false
                :: (pollEvents command rc bufs ++ failedReadEvents command rc e),
              Completion.exited 1) := by
  unfold executeCommand
  rw [readLoop_skip command rc bufs _ hpre]
  rfl

/-- C4: when the responses `bufs` lack "result" and the next response `buf` is
the first that contains it, `executeCommand` writes once, performs exactly
`bufs.length + 1` reads (one per response up to and including `buf`, none
after it) and returns nil. -/
theorem executeCommand_reads_until_result (writeError : Option GoError) (command : GoString)
    (wc rc : Option Characteristic) (bufs : List GoString) (buf : GoString)
    (rest : List ReadOutcome)
    (hpre : ∀ b ∈ bufs, ¬ bytesOf "result" <:+: b) (hbuf : bytesOf "result" <:+: buf) :
    executeCommand writeError (bufs.map ReadOutcome.ok ++ ReadOutcome.ok buf :: rest)
        command wc rc
      = some (Event.writeCharacteristic wc command false :: pollEvents command rc (bufs ++ [buf]),
              Completion.returned none)
    ∧ readCount (Event.writeCharacteristic wc command false
        :: pollEvents command rc (bufs ++ [buf])) = bufs.length + 1 := by
  constructor
  · exact executeCommand_of_result writeError command wc rc bufs buf rest hpre hbuf
  · have hw : readCount (Event.writeCharacteristic wc command false
        :: pollEvents command rc (bufs ++ [buf]))
        = readCount (pollEvents command rc (bufs ++ [buf])) := rfl
    rw [hw, readCount_pollEvents, List.length_append, List.length_singleton]

/-- C4 on the responses "pending", "result ok": exactly two reads, then
success. -/
theorem executeCommand_reads_until_result_witness :
    executeCommand none [ReadOutcome.ok (bytesOf "pending"), ReadOutcome.ok (bytesOf "result ok")]
        command (some ⟨1, CharWrite⟩) (some ⟨2, CharNotify⟩)
      = some (Event.writeCharacteristic (some ⟨1, CharWrite⟩) command false
                :: pollEvents command (some ⟨2, CharNotify⟩)
                    [bytesOf "pending", bytesOf "result ok"],
              Completion.returned none)
    ∧ readCount (Event.writeCharacteristic (some ⟨1, CharWrite⟩) command false
        :: pollEvents command (some ⟨2, CharNotify⟩)
            [bytesOf "pending", bytesOf "result ok"]) = 2 :=
  executeCommand_reads_until_result none command (some ⟨1, CharWrite⟩) (some ⟨2, CharNotify⟩)
    [bytesOf "pending"] (bytesOf "result ok") [] (by decide) (by decide)

/-- C5: when the responses `bufs` lack "result" and the next read fails with
`e`, `executeCommand` ends the process at once with the read-failure
diagnostic carrying `e` (status 1): the failed read is the last event but the
diagnostic, exactly `bufs.length + 1` reads are attempted, and the outcomes
after the failing one are never asked for. -/
theorem executeCommand_read_error (writeError : Option GoError) (command : GoString)
    (wc rc : Option Characteristic) (bufs : List GoString) (e : GoError)
    (rest : List ReadOutcome)
    (hpre : ∀ b ∈ bufs, ¬ bytesOf "result" <:+: b) :
    executeCommand writeError (bufs.map ReadOutcome.ok ++ ReadOutcome.err e :: rest)
        command wc rc
      = some (Event.writeCharacteristic wc command false
                :: (pollEvents command rc bufs ++ failedReadEvents command rc e),
              Completion.exited 1)
    ∧ readCount (Event.writeCharacteristic wc command false
        :: (pollEvents command rc bufs ++ failedReadEvents command rc e)) = bufs.length + 1 := by
  constructor
  · exact executeCommand_of_failed_read writeError command wc rc bufs e rest hpre
  · have hw : readCount (Event.writeCharacteristic wc command false
        :: (pollEvents command rc bufs ++ failedReadEvents command rc e))
        = readCount (pollEvents command rc bufs ++ failedReadEvents command rc e) := rfl
    have hf : readCount (failedReadEvents command rc e) = 1 := rfl
    rw [hw, readCount_append, readCount_pollEvents, hf]

/-- C5 on the outcomes "busy", failure, "result": the second read fails, the
process ends there after two reads and the third outcome is never read. -/
theorem executeCommand_read_error_witness :
    executeCommand none
        [ReadOutcome.ok (bytesOf "busy"), ReadOutcome.err (GoError.lib (bytesOf "disconnected")),
         ReadOutcome.ok (bytesOf "result")]
        command (some ⟨1, CharWrite⟩) (some ⟨2, CharNotify⟩)
      = some (Event.writeCharacteristic (some ⟨1, CharWrite⟩) command false
                :: (pollEvents command (some ⟨2, CharNotify⟩) [bytesOf "busy"]
                    ++ failedReadEvents command (some ⟨2, CharNotify⟩)
                        (GoError.lib (bytesOf "disconnected"))),
              Completion.exited 1)
    ∧ readCount (Event.writeCharacteristic (some ⟨1, CharWrite⟩) command false
        :: (pollEvents command (some ⟨2, CharNotify⟩) [bytesOf "busy"]
            ++ failedReadEvents command (some ⟨2, CharNotify⟩)
                (GoError.lib (bytesOf "disconnected")))) = 2 :=
  executeCommand_read_error none command (some ⟨1, CharWrite⟩) (some ⟨2, CharNotify⟩)
    [bytesOf "busy"] (GoError.lib (bytesOf "disconnected")) [ReadOutcome.ok (bytesOf "result")]
    (by decide)

/-- C8, the code at a failing write: the write reports a transport error, yet
`executeCommand` goes on to read the read characteristic and returns nil. -/
theorem executeCommand_ignores_write_error :
    executeCommand (some (GoError.lib (bytesOf "write failed")))
        [ReadOutcome.ok (bytesOf "result ok")]
        command (some ⟨1, CharWrite⟩) (some ⟨2, CharNotify⟩)
      = some ([Event.writeCharacteristic (some ⟨1, CharWrite⟩) command false,
               Event.logPrint [bytesOf "[write] ", command],
               Event.readCharacteristic (some ⟨2, CharNotify⟩),
               Event.logPrint [bytesOf "[read ] ", bytesOf "result ok"]],
              Completion.returned none) := by
  decide

/-- The error of the write never reaches the result of `executeCommand`. -/
theorem executeCommand_writeError_irrelevant (writeError : Option GoError)
    (reads : List ReadOutcome) (command : GoString) (wc rc : Option Characteristic) :
    executeCommand writeError reads command wc rc = executeCommand none reads command wc rc :=
  rfl

/-- C10 fails: the response `0xFF` followed by the bytes of "result" is not
valid UTF-8, yet the loop ends on it with success after this single read; the
next outcome of the script is never read. -/
theorem executeCommand_undecodable_counterexample :
    utf8Valid (0xFF :: bytesOf "result") = false
    ∧ executeCommand none
        [ReadOutcome.ok (0xFF :: bytesOf "result"), ReadOutcome.ok (bytesOf "result later")]
        command (some ⟨1, CharWrite⟩) (some ⟨2, CharNotify⟩)
      = some ([Event.writeCharacteristic (some ⟨1, CharWrite⟩) command false,
               Event.logPrint [bytesOf "[write] ", command],
               Event.readCharacteristic (some ⟨2, CharNotify⟩),
               Event.logPrint [bytesOf "[read ] ", 0xFF :: bytesOf "result"]],
              Completion.returned none) := by
  decide

/-- C10 as amended: on a successfully read response that is not valid UTF-8
the loop applies no decoding check and decides on the raw bytes: when they
include the bytes of "result" the loop ends with success on that response,
otherwise the response is non-matching and the loop goes on with the next
read. -/
theorem readLoop_undecodable (command : GoString) (rc : Option Characteristic)
    (buf : GoString) (rest : List ReadOutcome) (_hbad : utf8Valid buf = false) :
    readLoop command rc (ReadOutcome.ok buf :: rest) =
      if bytesOf "result" <:+: buf then
        some (iterationEvents command rc buf, Completion.returned none)
      else
        match readLoop command rc rest with
        | some (more, done) => some (iterationEvents command rc buf ++ more, done)
        | none => none :=
  readLoop_ok_step command rc buf rest

/-- C10 as amended, on the overlong encoding `0xC0 0x80` followed by a response
with "result": the undecodable response is passed over, the next read ends the
loop. -/
theorem readLoop_undecodable_witness :
    utf8Valid [0xC0, 0x80] = false
    ∧ readLoop command (some ⟨2, CharNotify⟩)
        (ReadOutcome.ok [0xC0, 0x80] :: [ReadOutcome.ok (bytesOf "result")]) =
      if bytesOf "result" <:+: [0xC0, 0x80] then
        some (iterationEvents command (some ⟨2, CharNotify⟩) [0xC0, 0x80],
              Completion.returned none)
      else
        match readLoop command (some ⟨2, CharNotify⟩) [ReadOutcome.ok (bytesOf "result")] with
        | some (more, done) =>
          some (iterationEvents command (some ⟨2, CharNotify⟩) [0xC0, 0x80] ++ more, done)
        | none => none :=
  ⟨by decide,
   readLoop_undecodable command (some ⟨2, CharNotify⟩) [0xC0, 0x80]
    [ReadOutcome.ok (bytesOf "result")] (by decide)⟩

/-! ## The session of `main` -/

theorem main_of_connected (env : Env) (mtu : Int) (p : Profile)
    (hdev : env.newDevice env.device = none)
    (hconn : env.connect (scanContext env.now env.sd) (filter env.unicodeUpper) = none)
    (hmtu : env.exchangeMTU 512 = Except.ok mtu)
    (hprof : env.discoverProfile true = Except.ok p) :
    main env =
      match session env p with
      | some (events, status) => some (connectedEvents env mtu ++ events, status)
      | none => none := by
  unfold main
  simp only [hdev, hconn, hmtu, hprof]
  rfl

/-- Whatever the profile holds, `session` goes straight to `executeCommand`
with the two characteristics as resolved, nil included. -/
theorem session_of_executeCommand (env : Env) (p : Profile) :
    session env p =
      match executeCommand env.writeError env.reads command
          (getWriteCharacteristics p).1 (getNotifyCharacteristics p).1 with
      | none => none
      | some (events, Completion.exited status) => some (events, status)
      | some (events, Completion.returned (some err)) =>
        some (events ++ [Event.fatalf "executeCommand() returns fail: %s" [Arg.error err]], 1)
      | some (events, Completion.returned none) =>
        some (events ++
          [Event.printf "Disconnecting [ %s ]... (this might take up to few seconds on OS X)\n"
             [Arg.str env.address],
           Event.cancelConnection,
           Event.recvDone], 0) :=
  rfl

theorem cancelCount_append (xs ys : List Event) :
    cancelCount (xs ++ ys) = cancelCount xs + cancelCount ys := by
  unfold cancelCount
  exact List.countP_append _ xs ys

theorem recvCount_append (xs ys : List Event) :
    recvCount (xs ++ ys) = recvCount xs + recvCount ys := by
  unfold recvCount
  exact List.countP_append _ xs ys

theorem cancelCount_pollEvents (command : GoString) (rc : Option Characteristic)
    (resps : List GoString) : cancelCount (pollEvents command rc resps) = 0 := by
  induction resps with
  | nil => rfl
  | cons b rest ih =>
    have hcons : pollEvents command rc (b :: rest)
        = iterationEvents command rc b ++ pollEvents command rc rest := by
      unfold pollEvents
      exact List.flatMap_cons b rest _
    have hone : cancelCount (iterationEvents command rc b) = 0 := rfl
    rw [hcons, cancelCount_append, ih, hone]

theorem recvCount_pollEvents (command : GoString) (rc : Option Characteristic)
    (resps : List GoString) : recvCount (pollEvents command rc resps) = 0 := by
  induction resps with
  | nil => rfl
  | cons b rest ih =>
    have hcons : pollEvents command rc (b :: rest)
        = iterationEvents command rc b ++ pollEvents command rc rest := by
      unfold pollEvents
      exact List.flatMap_cons b rest _
    have hone : recvCount (iterationEvents command rc b) = 0 := rfl
    rw [hcons, recvCount_append, ih, hone]

/-- C7 fails: in a session that reaches the command executor and whose second
read fails, the process ends with status 1 inside `executeCommand`;
`CancelConnection` is never invoked and `done` is never awaited. -/
theorem main_teardown_counterexample :
    main (scenarioEnv 5000000000 scenarioProfile none
        [ReadOutcome.ok (bytesOf "pending"), ReadOutcome.err (GoError.lib (bytesOf "disconnected"))])
      = some (connectedEvents (scenarioEnv 5000000000 scenarioProfile none []) 23
                ++ [Event.writeCharacteristic (some ⟨1, CharWrite⟩) command false,
                    Event.logPrint [bytesOf "[write] ", command],
                    Event.readCharacteristic (some ⟨2, CharNotify⟩),
                    Event.logPrint [bytesOf "[read ] ", bytesOf "pending"],
                    Event.logPrint [bytesOf "[write] ", command],
                    Event.readCharacteristic (some ⟨2, CharNotify⟩),
                    Event.fatalf "ReadCharacteristic() returns fails: %s"
                      [Arg.error (GoError.lib (bytesOf "disconnected"))]],
              1)
    ∧ (main (scenarioEnv 5000000000 scenarioProfile none
        [ReadOutcome.ok (bytesOf "pending"),
         ReadOutcome.err (GoError.lib (bytesOf "disconnected"))])).map
          (fun r => (cancelCount r.1, recvCount r.1)) = some (0, 0) := by
  decide

/-- C7 as amended: in a session of `main` that reaches the command executor,
when the first response with "result" arrives after responses without it,
the trace ends with `CancelConnection` followed by the wait on `done`, neither
occurs earlier, and the status is 0; when instead a read fails, the process
ends with status 1 on the read-failure diagnostic and the trace has no
`CancelConnection` and no wait on `done`. -/
theorem main_teardown (env : Env) (mtu : Int) (p : Profile) (bufs : List GoString)
    (last : ReadOutcome) (rest : List ReadOutcome)
    (hdev : env.newDevice env.device = none)
    (hconn : env.connect (scanContext env.now env.sd) (filter env.unicodeUpper) = none)
    (hmtu : env.exchangeMTU 512 = Except.ok mtu)
    (hprof : env.discoverProfile true = Except.ok p)
    (hreads : env.reads = bufs.map ReadOutcome.ok ++ last :: rest)
    (hpre : ∀ b ∈ bufs, ¬ bytesOf "result" <:+: b)
    (hlast : ∀ buf, last = ReadOutcome.ok buf → bytesOf "result" <:+: buf) :
    match last with
    | ReadOutcome.ok _ =>
      ∃ before, main env = some (before ++ [Event.cancelConnection, Event.recvDone], 0)
        ∧ cancelCount before = 0 ∧ recvCount before = 0
    | ReadOutcome.err e =>
      ∃ before, main env
          = some (before ++ failedReadEvents command (getNotifyCharacteristics p).1 e, 1)
        ∧ cancelCount (before ++ failedReadEvents command (getNotifyCharacteristics p).1 e) = 0
        ∧ recvCount (before ++ failedReadEvents command (getNotifyCharacteristics p).1 e) = 0 := by
  have hconnected : cancelCount (connectedEvents env mtu) = 0
      ∧ recvCount (connectedEvents env mtu) = 0 := ⟨rfl, rfl⟩
  cases last with
  | ok buf =>
    have hbuf := hlast buf rfl
    have hexec := executeCommand_of_result env.writeError command
      (getWriteCharacteristics p).1 (getNotifyCharacteristics p).1 bufs buf rest hpre hbuf
    refine ⟨connectedEvents env mtu ++
      (Event.writeCharacteristic (getWriteCharacteristics p).1 command false
        :: pollEvents command (getNotifyCharacteristics p).1 (bufs ++ [buf])) ++
      [Event.printf "Disconnecting [ %s ]... (this might take up to few seconds on OS X)\n"
        [Arg.str env.address]], ?_, ?_, ?_⟩
    · rw [main_of_connected env mtu p hdev hconn hmtu hprof, session_of_executeCommand,
        hreads, hexec]
      simp only [List.append_assoc, List.cons_append, List.nil_append]
    · rw [cancelCount_append, cancelCount_append, hconnected.1]
      have hw : cancelCount (Event.writeCharacteristic (getWriteCharacteristics p).1 command false
          :: pollEvents command (getNotifyCharacteristics p).1 (bufs ++ [buf]))
          = cancelCount (pollEvents command (getNotifyCharacteristics p).1 (bufs ++ [buf])) := rfl
      rw [hw, cancelCount_pollEvents]
      rfl
    · rw [recvCount_append, recvCount_append, hconnected.2]
      have hw : recvCount (Event.writeCharacteristic (getWriteCharacteristics p).1 command false
          :: pollEvents command (getNotifyCharacteristics p).1 (bufs ++ [buf]))
          = recvCount (pollEvents command (getNotifyCharacteristics p).1 (bufs ++ [buf])) := rfl
      rw [hw, recvCount_pollEvents]
      rfl
  | err e =>
    have hexec := executeCommand_of_failed_read env.writeError command
      (getWriteCharacteristics p).1 (getNotifyCharacteristics p).1 bufs e rest hpre
    refine ⟨connectedEvents env mtu ++
      (Event.writeCharacteristic (getWriteCharacteristics p).1 command false
        :: pollEvents command (getNotifyCharacteristics p).1 bufs), ?_, ?_, ?_⟩
    · rw [main_of_connected env mtu p hdev hconn hmtu hprof, session_of_executeCommand,
        hreads, hexec]
      simp only [List.append_assoc, List.cons_append, List.nil_append]
    · rw [cancelCount_append, cancelCount_append, hconnected.1]
      have hw : cancelCount (Event.writeCharacteristic (getWriteCharacteristics p).1 command false
          :: pollEvents command (getNotifyCharacteristics p).1 bufs)
          = cancelCount (pollEvents command (getNotifyCharacteristics p).1 bufs) := rfl
      rw [hw, cancelCount_pollEvents]
      rfl
    · rw [recvCount_append, recvCount_append, hconnected.2]
      have hw : recvCount (Event.writeCharacteristic (getWriteCharacteristics p).1 command false
          :: pollEvents command (getNotifyCharacteristics p).1 bufs)
          = recvCount (pollEvents command (getNotifyCharacteristics p).1 bufs) := rfl
      rw [hw, recvCount_pollEvents]
      rfl

/-- C7 as amended, on the run with the responses "pending", "result ok": the
trace ends with `CancelConnection` and the wait on `done`, status 0. -/
theorem main_teardown_witness :
    ∃ before,
      main (scenarioEnv 5000000000 scenarioProfile none
          [ReadOutcome.ok (bytesOf "pending"), ReadOutcome.ok (bytesOf "result ok")])
        = some (before ++ [Event.cancelConnection, Event.recvDone], 0)
      ∧ cancelCount before = 0 ∧ recvCount before = 0 :=
  main_teardown
    (scenarioEnv 5000000000 scenarioProfile none
      [ReadOutcome.ok (bytesOf "pending"), ReadOutcome.ok (bytesOf "result ok")])
    23 scenarioProfile [bytesOf "pending"] (ReadOutcome.ok (bytesOf "result ok")) []
    (by decide) (by decide) rfl rfl rfl (by decide)
    (fun buf hbuf => by
      cases hbuf
      decide)

/-- C6, the code at a profile without any characteristic: both resolutions
give a nil characteristic with the "not found" error, `main` reads neither
error, `executeCommand` runs with nil characteristics (one write, one read)
and the process ends with status 0 without any diagnostic. -/
theorem main_runs_executor_without_characteristics :
    getNotifyCharacteristics { services := [] }
      = (none, some (GoError.errorf "not found %v Characteristic" CharNotify))
    ∧ getWriteCharacteristics { services := [] }
      = (none, some (GoError.errorf "not found %v Characteristic" CharWrite))
    ∧ main (scenarioEnv 5000000000 { services := [] } none [ReadOutcome.ok (bytesOf "result ok")])
      = some (connectedEvents (scenarioEnv 5000000000 { services := [] } none []) 23
                ++ [Event.writeCharacteristic none command false,
                    Event.logPrint [bytesOf "[write] ", command],
                    Event.readCharacteristic none,
                    Event.logPrint [bytesOf "[read ] ", bytesOf "result ok"],
                    Event.printf
                      "Disconnecting [ %s ]... (this might take up to few seconds on OS X)\n"
                      [Arg.str (bytesOf "aa:bb")],
                    Event.cancelConnection,
                    Event.recvDone],
              0) := by
  decide

/-- C9, the code at `-sd 0`: the context handed to `ble.Connect` always has a
deadline, the instant of its creation plus the scan duration; for a zero
duration that deadline has elapsed the moment the context exists. -/
theorem scanContext_deadline (now sd : Int) :
    (scanContext now sd).deadline = some (now + sd)
    ∧ (scanContext now 0).deadline = some now
    ∧ (scanContext now 0).expiredAt now = true := by
  have hdl : ∀ d : Int, (scanContext now d).deadline = some (now + d) := fun _ => rfl
  refine ⟨hdl sd, ?_, ?_⟩
  · rw [hdl 0, Int.add_zero]
  · unfold Ctx.expiredAt
    rw [hdl 0, Int.add_zero]
    exact decide_eq_true (Int.le_refl now)

/-- With `-sd 0` the run whose peripheral would be found after one second ends
with the "can't connect" diagnostic: the context has expired before the
advertisement arrives. -/
theorem main_zero_scan_duration :
    main (scenarioEnv 0 scenarioProfile none [ReadOutcome.ok (bytesOf "result ok")])
      = some ([Event.newDevice (bytesOf "default"), Event.setDefaultDevice,
               Event.printf "Scanning for %s...\n" [Arg.duration 0],
               Event.connect { deadline := some 0, sigHandler := true },
               Event.fatalf "can't connect : %s"
                 [Arg.error (GoError.lib (bytesOf "context deadline exceeded"))]],
              1) := by
  decide

end Yudetamago
